import Mathlib

/-!
Verification development for the NYC taxi trip dashboard
(`app.py` and `newapp.py`).

The embedding models the filtered-data retrieval and derivation pipeline:

* A trip dataset is a `List Trip`; a dataframe operation such as a
  `WHERE` clause or a boolean-mask filter becomes `List.filter`, a
  column assignment becomes a field of a row structure, and the pandas
  left `merge` against the zone table becomes a `flatMap` producing one
  output row per matching zone row (or a single unmatched row).
* Naive timestamps are modelled as seconds since the Unix epoch
  (`Nat`); `dt.hour` is `t % 86400 / 3600`, `dt.date` is `t / 86400`,
  and `dt.day_name()` reads the weekday from the day index
  (1970-01-01 was a Thursday, so Monday-based index is
  `(t / 86400 + 3) % 7`).
* Monetary and distance columns are modelled as `ℚ`; only order
  comparisons and exact arithmetic on them matter to the claims.
* Nullable columns (`payment_type`, the `Zone` name of a zone row, the
  columns appended by the left merge) are `Option`s; SQL three-valued
  logic makes `payment_type IN (...)` false on NULL, which the
  embedding reflects by matching on the `Option`.
* `st.cache_data` is modelled as an explicit memo table keyed by the
  argument tuple compared by value (streamlit hashes list arguments as
  sequences, i.e. element order matters), together with a counter of
  remote retrievals actually issued.
-/

namespace Taxi

/-- A logical row of the trip source, restricted to the nine columns
selected by `newapp.py`'s query (§3 Trip Record of the spec). -/
structure Trip where
  tpep_pickup_datetime : Nat
  tpep_dropoff_datetime : Nat
  PULocationID : Int
  DOLocationID : Int
  trip_distance : ℚ
  fare_amount : ℚ
  tip_amount : ℚ
  total_amount : ℚ
  payment_type : Option Int
deriving DecidableEq

/-- A row of the zone lookup table, restricted to the two columns the
code uses (`LocationID`, `Zone`); `Zone` may be missing in the CSV. -/
structure ZoneRow where
  LocationID : Int
  Zone : Option String
deriving DecidableEq

/-- `PAYMENT_MAP` from `newapp.py` (and the identical `payment_map`
literal in `app.py`), as an association list. -/
def PAYMENT_MAP : List (Int × String) :=
  [(1, "Credit Card"), (2, "Cash"), (3, "No Charge"),
   (4, "Dispute"), (5, "Unknown"), (6, "Voided Trip")]

/-- `LABEL_TO_CODE = {v: k for k, v in PAYMENT_MAP.items()}`. -/
def LABEL_TO_CODE : List (String × Int) :=
  PAYMENT_MAP.map fun kv => (kv.2, kv.1)

/-- `df["payment_type"].map(PAYMENT_MAP).fillna("Other/Missing")`,
per row: a dict lookup whose misses (including a null code) become
`"Other/Missing"`. -/
def paymentLabel (c : Option Int) : String :=
  match c with
  | none => "Other/Missing"
  | some k => (PAYMENT_MAP.lookup k).getD "Other/Missing"

/-- Hour component of a naive timestamp (`dt.hour`,
`EXTRACT('hour' FROM ...)`). -/
def hourOf (t : Nat) : Nat := t % 86400 / 3600

/-- Monday-based weekday index of a timestamp (1970-01-01 was a
Thursday). -/
def dayIdx (t : Nat) : Nat := (t / 86400 + 3) % 7

/-- `day_order` from the sources: the categories of the ordered
weekday categorical. -/
def day_order : List String :=
  ["Monday", "Tuesday", "Wednesday", "Thursday", "Friday", "Saturday", "Sunday"]

/-- `dt.day_name()`. -/
def dayName (t : Nat) : String := day_order.getD (dayIdx t) ""

/-- The argument tuple of `get_filtered_df`, i.e. the Filter
Specification.  List-valued fields are kept as lists because both the
SQL construction and the `st.cache_data` key treat them as sequences. -/
structure FilterArgs where
  start_datetime : Nat
  end_datetime : Nat
  hour_min : Nat
  hour_max : Nat
  payment_labels : List String
  selected_zone_names : List String
deriving DecidableEq

/-- `[LABEL_TO_CODE[p] for p in payment_labels if p in LABEL_TO_CODE]`. -/
def payment_codes (labels : List String) : List Int :=
  labels.filterMap fun p => LABEL_TO_CODE.lookup p

/-- `zones_df[zones_df["Zone"].isin(selected_zone_names)]["LocationID"]
.dropna().astype(int).unique().tolist()`; `LocationID` is never null in
the model, and pandas `unique` keeps first occurrences, i.e. `dedup`. -/
def loc_ids (zones : List ZoneRow) (names : List String) : List Int :=
  ((zones.filter fun z =>
      match z.Zone with
      | some n => names.contains n
      | none => false).map (·.LocationID)).dedup

/-- A fully derived output row of `get_filtered_df`: the nine selected
trip columns plus every derived column, including the `LocationID`
column that the left merge appends.  `pickup_day_of_week` carries the
weekday name; the ordered-categorical recast keeps exactly these
string values because `day_name()` only produces members of
`day_order` (lemma `dayName_mem_day_order` below), with the category
order modelled by `catLe`. -/
structure DerivedRow where
  tpep_pickup_datetime : Nat
  tpep_dropoff_datetime : Nat
  PULocationID : Int
  DOLocationID : Int
  trip_distance : ℚ
  fare_amount : ℚ
  tip_amount : ℚ
  total_amount : ℚ
  payment_type : Option Int
  trip_duration_minutes : ℚ
  pickup_hour : Nat
  pickup_day_of_week : String
  pickup_date : Nat
  LocationID : Option Int
  pickup_zone : Option String
  payment_label : String
deriving DecidableEq

/-- The derived columns of one trip joined against one (optional)
matching zone row. -/
def newRowOf (r : Trip) (z : Option ZoneRow) : DerivedRow :=
  { tpep_pickup_datetime := r.tpep_pickup_datetime
    tpep_dropoff_datetime := r.tpep_dropoff_datetime
    PULocationID := r.PULocationID
    DOLocationID := r.DOLocationID
    trip_distance := r.trip_distance
    fare_amount := r.fare_amount
    tip_amount := r.tip_amount
    total_amount := r.total_amount
    payment_type := r.payment_type
    trip_duration_minutes :=
      ((r.tpep_dropoff_datetime : ℚ) - (r.tpep_pickup_datetime : ℚ)) / 60
    pickup_hour := hourOf r.tpep_pickup_datetime
    pickup_day_of_week := dayName r.tpep_pickup_datetime
    pickup_date := r.tpep_pickup_datetime / 86400
    LocationID := z.map (·.LocationID)
    pickup_zone := z.bind (·.Zone)
    payment_label := paymentLabel r.payment_type }

/-- Row-level semantics of the derivation stage of `get_filtered_df`
(`newapp.py` lines 127-151) for a single trip: the column assignments
followed by the left merge on `PULocationID = LocationID`.  A left
merge yields one output row per matching right row, and a single
unmatched row when there is no match. -/
def deriveOne (zones : List ZoneRow) (r : Trip) : List DerivedRow :=
  match zones.filter (fun z => z.LocationID == r.PULocationID) with
  | [] => [newRowOf r none]
  | ms => ms.map fun z => newRowOf r (some z)

/-- The derivation stage of `get_filtered_df` over a whole row set. -/
def deriveRows (zones : List ZoneRow) (rows : List Trip) : List DerivedRow :=
  rows.flatMap (deriveOne zones)

/-- The `WHERE` clause of the pushdown query (`newapp.py` lines
112-121): `zoneOn` records whether `zone_filter_sql` was non-empty. -/
def tripPred (a : FilterArgs) (codes : List Int) (ids : List Int)
    (zoneOn : Bool) (r : Trip) : Bool :=
  decide (a.start_datetime ≤ r.tpep_pickup_datetime) &&
  decide (r.tpep_pickup_datetime < a.end_datetime) &&
  decide (a.hour_min ≤ hourOf r.tpep_pickup_datetime) &&
  decide (hourOf r.tpep_pickup_datetime ≤ a.hour_max) &&
  (match r.payment_type with
   | some c => codes.contains c
   | none => false) &&
  decide ((0 : ℚ) < r.trip_distance) &&
  decide ((0 : ℚ) < r.fare_amount) &&
  decide (r.fare_amount ≤ (500 : ℚ)) &&
  decide (r.tpep_pickup_datetime < r.tpep_dropoff_datetime) &&
  (!zoneOn || ids.contains r.PULocationID)

/-- Whether the zone predicate is attached to the query: a zone subset
is selected and it resolved to at least one location id. -/
def zoneOn (zones : List ZoneRow) (a : FilterArgs) : Bool :=
  !a.selected_zone_names.isEmpty &&
    !(loc_ids zones a.selected_zone_names).isEmpty

/-- The query step of `get_filtered_df`: executing the pushdown
predicate against the trip dataset. -/
def queryRows (ds : List Trip) (zones : List ZoneRow) (a : FilterArgs) :
    List Trip :=
  ds.filter (tripPred a (payment_codes a.payment_labels)
    (loc_ids zones a.selected_zone_names) (zoneOn zones a))

/-- Column names of the dataframe returned on the main path of
`get_filtered_df`, in pandas order: the nine selected columns, the
assigned derived columns, the two columns appended by the merge, and
`payment_label`. -/
def NEWAPP_COLUMNS : List String :=
  ["tpep_pickup_datetime", "tpep_dropoff_datetime", "PULocationID",
   "DOLocationID", "trip_distance", "fare_amount", "tip_amount",
   "total_amount", "payment_type", "trip_duration_minutes",
   "pickup_hour", "pickup_day_of_week", "pickup_date", "LocationID",
   "pickup_zone", "payment_label"]

/-- A result dataframe: its column names together with its rows. -/
structure Df where
  columns : List String
  rows : List DerivedRow
deriving DecidableEq

/-- `pd.DataFrame()`: an empty frame with no columns at all. -/
def emptyDf : Df := { columns := [], rows := [] }

/-- `get_filtered_df` of `newapp.py`: translate labels to codes,
short-circuit on an empty code set, otherwise run the pushdown query
and the derivation stage.  The second component records whether a
query was issued against the remote trip source. -/
def get_filtered_df (ds : List Trip) (zones : List ZoneRow)
    (a : FilterArgs) : Df × Bool :=
  if (payment_codes a.payment_labels).isEmpty then (emptyDf, false)
  else
    ({ columns := NEWAPP_COLUMNS
       rows := deriveRows zones (queryRows ds zones a) }, true)

/-- The state of the `st.cache_data` memo table wrapping
`get_filtered_df`, plus a count of remote retrievals issued. -/
structure CacheState where
  entries : List (FilterArgs × Df)
  retrievals : Nat
deriving DecidableEq

/-- `get_filtered_df` as called through `st.cache_data`: the key is the
argument tuple compared by value (list arguments hashed as sequences);
on a miss the result is computed, stored, and the retrieval counter
advanced when a query was issued. -/
def get_filtered_df_cached (ds : List Trip) (zones : List ZoneRow)
    (a : FilterArgs) (s : CacheState) : Df × CacheState :=
  match s.entries.lookup a with
  | some v => (v, s)
  | none =>
    let out := get_filtered_df ds zones a
    (out.1,
     { entries := (a, out.1) :: s.entries
       retrievals := s.retrievals + (if out.2 then 1 else 0) })

/-- A fully derived row of `app.py`'s in-memory pipeline: the same
columns as `DerivedRow` plus `passenger_count` is dropped from the
model (it is selected by `app.py`'s SQL but never read, filtered on,
or part of the spec's Trip Record) and `trip_speed_mph` is added. -/
structure AppRow where
  tpep_pickup_datetime : Nat
  tpep_dropoff_datetime : Nat
  PULocationID : Int
  DOLocationID : Int
  trip_distance : ℚ
  fare_amount : ℚ
  tip_amount : ℚ
  total_amount : ℚ
  payment_type : Option Int
  trip_duration_minutes : ℚ
  trip_speed_mph : Option ℚ
  pickup_hour : Nat
  pickup_day_of_week : String
  LocationID : Option Int
  pickup_zone : Option String
  payment_label : String
  pickup_date : Nat
deriving DecidableEq

/-- The cleaning mask of `load_data` (`app.py` lines 76-81).  The
preceding `dropna` is the identity in the model because the listed
columns are non-nullable there. -/
def cleanPred (r : Trip) : Bool :=
  decide ((0 : ℚ) < r.trip_distance) &&
  decide ((0 : ℚ) < r.fare_amount) &&
  decide (r.fare_amount ≤ (500 : ℚ)) &&
  decide (r.tpep_pickup_datetime < r.tpep_dropoff_datetime)

/-- The derived columns of `load_data` for one trip joined against one
(optional) matching zone row.  `trip_speed_mph` replaces a zero
duration by missing (`replace(0, pd.NA)`) before dividing. -/
def appRowOf (r : Trip) (z : Option ZoneRow) : AppRow :=
  { tpep_pickup_datetime := r.tpep_pickup_datetime
    tpep_dropoff_datetime := r.tpep_dropoff_datetime
    PULocationID := r.PULocationID
    DOLocationID := r.DOLocationID
    trip_distance := r.trip_distance
    fare_amount := r.fare_amount
    tip_amount := r.tip_amount
    total_amount := r.total_amount
    payment_type := r.payment_type
    trip_duration_minutes :=
      ((r.tpep_dropoff_datetime : ℚ) - (r.tpep_pickup_datetime : ℚ)) / 60
    trip_speed_mph :=
      if ((r.tpep_dropoff_datetime : ℚ) - (r.tpep_pickup_datetime : ℚ)) / 60 = 0
      then none
      else some (r.trip_distance /
        ((((r.tpep_dropoff_datetime : ℚ) - (r.tpep_pickup_datetime : ℚ)) / 60) / 60))
    pickup_hour := hourOf r.tpep_pickup_datetime
    pickup_day_of_week := dayName r.tpep_pickup_datetime
    LocationID := z.map (·.LocationID)
    pickup_zone := z.bind (·.Zone)
    payment_label := paymentLabel r.payment_type
    pickup_date := r.tpep_pickup_datetime / 86400 }

/-- Row-level semantics of `load_data`'s derivation for one trip:
column assignments plus the left merge against the zone table. -/
def appDeriveOne (zones : List ZoneRow) (r : Trip) : List AppRow :=
  match zones.filter (fun z => z.LocationID == r.PULocationID) with
  | [] => [appRowOf r none]
  | ms => ms.map fun z => appRowOf r (some z)

/-- `load_data` of `app.py`: load all rows, clean, derive. -/
def load_data (ds : List Trip) (zones : List ZoneRow) : List AppRow :=
  (ds.filter cleanPred).flatMap (appDeriveOne zones)

/-- The sidebar mask of `app.py` (lines 184-190): date window, hour
window, and payment-label membership. -/
def sidebarPred (a : FilterArgs) (r : AppRow) : Bool :=
  decide (a.start_datetime ≤ r.tpep_pickup_datetime) &&
  decide (r.tpep_pickup_datetime < a.end_datetime) &&
  decide (a.hour_min ≤ r.pickup_hour) &&
  decide (r.pickup_hour ≤ a.hour_max) &&
  a.payment_labels.contains r.payment_label

/-- The optional zone mask of `app.py` (lines 192-193):
`pickup_zone.isin(selected_zones)`, false on a missing zone name. -/
def zoneSelPred (names : List String) (r : AppRow) : Bool :=
  match r.pickup_zone with
  | some z => names.contains z
  | none => false

/-- `filtered_df` of `app.py`: the sidebar mask applied to the loaded
data, then the zone mask when a zone subset is selected. -/
def filtered_df (ds : List Trip) (zones : List ZoneRow) (a : FilterArgs) :
    List AppRow :=
  let f := (load_data ds zones).filter (sidebarPred a)
  if a.selected_zone_names.isEmpty then f
  else f.filter (zoneSelPred a.selected_zone_names)

/-- Projection of an `app.py` derived row onto the columns shared with
`newapp.py`'s derived rows (drops `trip_speed_mph`). -/
def projApp (r : AppRow) : DerivedRow :=
  { tpep_pickup_datetime := r.tpep_pickup_datetime
    tpep_dropoff_datetime := r.tpep_dropoff_datetime
    PULocationID := r.PULocationID
    DOLocationID := r.DOLocationID
    trip_distance := r.trip_distance
    fare_amount := r.fare_amount
    tip_amount := r.tip_amount
    total_amount := r.total_amount
    payment_type := r.payment_type
    trip_duration_minutes := r.trip_duration_minutes
    pickup_hour := r.pickup_hour
    pickup_day_of_week := r.pickup_day_of_week
    pickup_date := r.pickup_date
    LocationID := r.LocationID
    pickup_zone := r.pickup_zone
    payment_label := r.payment_label }

/-- The order of the ordered weekday categorical: position in
`day_order`, with the library string order as a tie-break on strings
outside the category list (such strings never occur among derived
weekday values). -/
def catLe (a b : String) : Prop :=
  day_order.indexOf a < day_order.indexOf b ∨
    (day_order.indexOf a = day_order.indexOf b ∧ a ≤ b)

instance : DecidableRel catLe := fun a b =>
  inferInstanceAs (Decidable (_ ∨ _))

instance : IsTrans String catLe where
  trans a b c hab hbc := by
    rcases hab with h₁ | ⟨h₁, h₁'⟩ <;> rcases hbc with h₂ | ⟨h₂, h₂'⟩
    · exact Or.inl (h₁.trans h₂)
    · exact Or.inl (h₂ ▸ h₁)
    · exact Or.inl (h₁ ▸ h₂)
    · exact Or.inr ⟨h₁.trans h₂, h₁'.trans h₂'⟩

instance : IsTotal String catLe where
  total a b := by
    rcases Nat.lt_trichotomy (day_order.indexOf a) (day_order.indexOf b)
      with h | h | h
    · exact Or.inl (Or.inl h)
    · rcases le_total a b with h' | h'
      · exact Or.inl (Or.inr ⟨h, h'⟩)
      · exact Or.inr (Or.inr ⟨h.symm, h'⟩)
    · exact Or.inr (Or.inl h)

instance : IsAntisymm String catLe where
  antisymm a b hab hba := by
    rcases hab with h₁ | ⟨h₁, h₁'⟩ <;> rcases hba with h₂ | ⟨h₂, h₂'⟩
    · exact absurd (h₁.trans h₂) (lt_irrefl _)
    · exact absurd h₁ (h₂ ▸ lt_irrefl _)
    · exact absurd h₂ (h₁ ▸ lt_irrefl _)
    · exact le_antisymm h₁' h₂'

/-- The distinct weekday values present in a derived row set
(`groupby("pickup_day_of_week")` group keys). -/
def groupDayKeys (rows : List DerivedRow) : List String :=
  (rows.map DerivedRow.pickup_day_of_week).dedup

/-- The group keys sorted by the weekday categorical's order. -/
def sortedDayKeys (rows : List DerivedRow) : List String :=
  List.insertionSort catLe (groupDayKeys rows)

/-- The unique zone row matching a trip's pickup location, when the
zone table's location ids are distinct. -/
def zmatch (zones : List ZoneRow) (r : Trip) : Option ZoneRow :=
  (zones.filter (fun z => z.LocationID == r.PULocationID)).head?

/-- Concrete trip of the spec's §8.7 scenario: pickup
2024-01-05T05:10, dropoff 2024-01-05T05:40 (Unix seconds), distance
12.0, fare 45.00, payment code 1, pickup location 132. -/
def trip8 : Trip :=
  { tpep_pickup_datetime := 1704431400
    tpep_dropoff_datetime := 1704433200
    PULocationID := 132
    DOLocationID := 230
    trip_distance := 12
    fare_amount := 45
    tip_amount := 0
    total_amount := 45
    payment_type := some 1 }

/-- Zone table fixture: location 132 is "JFK Airport". -/
def zones8 : List ZoneRow := [{ LocationID := 132, Zone := some "JFK Airport" }]

/-- Filter Specification of the §8.7 scenario: the day 2024-01-05,
hours [0, 23], payments {"Credit Card"}, no zone selection. -/
def args8 : FilterArgs :=
  { start_datetime := 1704412800
    end_datetime := 1704499200
    hour_min := 0
    hour_max := 23
    payment_labels := ["Credit Card"]
    selected_zone_names := [] }

/-- The derived row the §8.7 scenario must produce. -/
def row8 : DerivedRow :=
  { tpep_pickup_datetime := 1704431400
    tpep_dropoff_datetime := 1704433200
    PULocationID := 132
    DOLocationID := 230
    trip_distance := 12
    fare_amount := 45
    tip_amount := 0
    total_amount := 45
    payment_type := some 1
    trip_duration_minutes := 30
    pickup_hour := 5
    pickup_day_of_week := "Friday"
    pickup_date := 19727
    LocationID := some 132
    pickup_zone := some "JFK Airport"
    payment_label := "Credit Card" }

/-- The claim's predicate list for the filtered retrieval (§4.3 step 3
of the spec), stated as a proposition about a trip: pickup in
[start, end), hour-of-day in [hour_lo, hour_hi], payment code in the
resolved set, distance > 0, 0 < fare ≤ 500, dropoff after pickup, and
— when a zone subset resolved to ids — pickup location id among the
resolved ids.  Stated from the spec's words, to be compared with the
query's `tripPred`. -/
def specPredicates (zones : List ZoneRow) (a : FilterArgs) (r : Trip) : Prop :=
  a.start_datetime ≤ r.tpep_pickup_datetime ∧
  r.tpep_pickup_datetime < a.end_datetime ∧
  a.hour_min ≤ hourOf r.tpep_pickup_datetime ∧
  hourOf r.tpep_pickup_datetime ≤ a.hour_max ∧
  (∃ c, r.payment_type = some c ∧ c ∈ payment_codes a.payment_labels) ∧
  0 < r.trip_distance ∧ 0 < r.fare_amount ∧ r.fare_amount ≤ 500 ∧
  r.tpep_pickup_datetime < r.tpep_dropoff_datetime ∧
  (a.selected_zone_names ≠ [] → loc_ids zones a.selected_zone_names ≠ [] →
    r.PULocationID ∈ loc_ids zones a.selected_zone_names)

/-- Specification equal to `argsOrdB` on every field up to set
equality of the list fields, with the payment labels in one order. -/
def argsOrdA : FilterArgs :=
  { start_datetime := 0, end_datetime := 10, hour_min := 0, hour_max := 23
    payment_labels := ["Credit Card", "Cash"], selected_zone_names := [] }

/-- Same specification as `argsOrdA` with the payment labels
reordered. -/
def argsOrdB : FilterArgs :=
  { start_datetime := 0, end_datetime := 10, hour_min := 0, hour_max := 23
    payment_labels := ["Cash", "Credit Card"], selected_zone_names := [] }

/-! ### Supporting lemmas -/

/-- With distinct location ids, at most one zone row matches a pickup
location. -/
lemma filter_loc_small (zones : List ZoneRow)
    (hz : (zones.map ZoneRow.LocationID).Nodup) (pu : Int) :
    zones.filter (fun z => z.LocationID == pu) = [] ∨
      ∃ w, zones.filter (fun z => z.LocationID == pu) = [w] := by
  induction zones with
  | nil => exact Or.inl rfl
  | cons z zs ih =>
    rw [List.map_cons, List.nodup_cons] at hz
    by_cases h : z.LocationID = pu
    · refine Or.inr ⟨z, ?_⟩
      rw [List.filter_cons_of_pos (by simpa using h)]
      have : zs.filter (fun w => w.LocationID == pu) = [] := by
        rw [List.filter_eq_nil_iff]
        intro w hw hwp
        exact hz.1 (h ▸ (by simpa using hwp) ▸ List.mem_map_of_mem ZoneRow.LocationID hw)
      rw [this]
    · rw [List.filter_cons_of_neg (by simpa using h)]
      exact ih hz.2

/-- Under the unique-id invariant, per-trip derivation produces exactly
the row joined with `zmatch`. -/
lemma deriveOne_eq (zones : List ZoneRow)
    (hz : (zones.map ZoneRow.LocationID).Nodup) (r : Trip) :
    deriveOne zones r = [newRowOf r (zmatch zones r)] := by
  rcases filter_loc_small zones hz r.PULocationID with h | ⟨w, h⟩ <;>
    simp [deriveOne, zmatch, h]

/-- Under the unique-id invariant, `app.py`'s per-trip derivation
produces exactly the row joined with `zmatch`. -/
lemma appDeriveOne_eq (zones : List ZoneRow)
    (hz : (zones.map ZoneRow.LocationID).Nodup) (r : Trip) :
    appDeriveOne zones r = [appRowOf r (zmatch zones r)] := by
  rcases filter_loc_small zones hz r.PULocationID with h | ⟨w, h⟩ <;>
    simp [appDeriveOne, zmatch, h]

/-- Under the unique-id invariant, the derivation stage is a `map`. -/
lemma deriveRows_eq (zones : List ZoneRow)
    (hz : (zones.map ZoneRow.LocationID).Nodup) (l : List Trip) :
    deriveRows zones l = l.map (fun r => newRowOf r (zmatch zones r)) := by
  induction l with
  | nil => rfl
  | cons r t ih =>
    rw [deriveRows, List.flatMap_cons, deriveOne_eq zones hz r]
    rw [deriveRows] at ih
    simp [ih]

/-- Under the unique-id invariant, `load_data` is a clean-filter
followed by a `map`. -/
lemma load_data_eq (ds : List Trip) (zones : List ZoneRow)
    (hz : (zones.map ZoneRow.LocationID).Nodup) :
    load_data ds zones
      = (ds.filter cleanPred).map (fun r => appRowOf r (zmatch zones r)) := by
  rw [load_data]
  induction ds.filter cleanPred with
  | nil => rfl
  | cons r t ih =>
    rw [List.flatMap_cons, appDeriveOne_eq zones hz r]
    simp [ih]

/-- `zmatch` misses exactly when no zone row carries the pickup id. -/
lemma zmatch_eq_none (zones : List ZoneRow) (r : Trip) :
    zmatch zones r = none ↔ ∀ z ∈ zones, z.LocationID ≠ r.PULocationID := by
  simp [zmatch, List.head?_eq_none_iff, List.filter_eq_nil_iff]

/-- What a `zmatch` hit tells us about the matched row. -/
lemma zmatch_eq_some (zones : List ZoneRow) (r : Trip) (w : ZoneRow)
    (h : zmatch zones r = some w) :
    w ∈ zones ∧ w.LocationID = r.PULocationID := by
  have hw : w ∈ zones.filter (fun z => z.LocationID == r.PULocationID) :=
    List.mem_of_mem_head? (by rw [zmatch] at h; simp [h])
  have := List.mem_filter.mp hw
  exact ⟨this.1, by simpa using this.2⟩

/-- Membership in the resolved location-id list. -/
lemma mem_loc_ids (zones : List ZoneRow) (names : List String) (c : Int) :
    c ∈ loc_ids zones names ↔
      ∃ z ∈ zones, z.LocationID = c ∧ ∃ n, z.Zone = some n ∧ n ∈ names := by
  rw [loc_ids, List.mem_dedup]
  constructor
  · intro h
    obtain ⟨z, hzf, rfl⟩ := List.mem_map.mp h
    obtain ⟨hzz, hzp⟩ := List.mem_filter.mp hzf
    refine ⟨z, hzz, rfl, ?_⟩
    cases hn : z.Zone with
    | none => rw [hn] at hzp; cases hzp
    | some n => rw [hn] at hzp; exact ⟨n, rfl, by simpa using hzp⟩
  · rintro ⟨z, hzz, rfl, n, hn, hnn⟩
    refine List.mem_map_of_mem _ (List.mem_filter.mpr ⟨hzz, ?_⟩)
    rw [hn]
    simpa using hnn

/-- `day_name()` only produces members of the weekday category list. -/
lemma dayName_mem_day_order (t : Nat) : dayName t ∈ day_order := by
  have hb : ∀ i, i < 7 → day_order.getD i "" ∈ day_order := by decide
  exact hb (dayIdx t) (Nat.mod_lt _ (by norm_num))

/-- The weekday of every derived row is the weekday name of its pickup
timestamp. -/
lemma pdow_of_deriveOne (zones : List ZoneRow) (r : Trip) (d : DerivedRow)
    (hd : d ∈ deriveOne zones r) :
    d.pickup_day_of_week = dayName r.tpep_pickup_datetime := by
  rw [deriveOne] at hd
  rcases hfil : zones.filter (fun z => z.LocationID == r.PULocationID) with _ | ⟨w, t⟩
  · rw [hfil] at hd
    simp at hd
    rw [hd, newRowOf]
  · rw [hfil] at hd
    obtain ⟨z, _, rfl⟩ := List.mem_map.mp hd
    rfl

/-- The payment-code translation of a label list and label membership
of a payment code agree, for label lists drawn from the six known
labels. -/
lemma payment_label_mem_iff (labels : List String)
    (hl : ∀ p ∈ labels, p ∈ PAYMENT_MAP.map Prod.snd) (pt : Option Int) :
    paymentLabel pt ∈ labels ↔
      ∃ c, pt = some c ∧ c ∈ payment_codes labels := by
  have hlookup : ∀ kv ∈ PAYMENT_MAP,
      LABEL_TO_CODE.lookup kv.2 = some kv.1 ∧
        paymentLabel (some kv.1) = kv.2 := by decide
  cases pt with
  | none =>
    constructor
    · intro h
      exact absurd (hl _ h) (by decide)
    · rintro ⟨c, hc, -⟩; cases hc
  | some c =>
    rw [payment_codes]
    constructor
    · intro h
      have hmem : paymentLabel (some c) ∈ labels := h
      refine ⟨c, rfl, List.mem_filterMap.mpr ⟨paymentLabel (some c), hmem, ?_⟩⟩
      have hsix := hl _ hmem
      -- `paymentLabel (some c)` is one of the six labels, so `c` is the
      -- corresponding code: otherwise the label would be "Other/Missing".
      by_cases h1 : c = 1
      · subst h1; decide
      by_cases h2 : c = 2
      · subst h2; decide
      by_cases h3 : c = 3
      · subst h3; decide
      by_cases h4 : c = 4
      · subst h4; decide
      by_cases h5 : c = 5
      · subst h5; decide
      by_cases h6 : c = 6
      · subst h6; decide
      exfalso
      have hother : paymentLabel (some c) = "Other/Missing" := by
        rw [paymentLabel, PAYMENT_MAP]
        simp [List.lookup, beq_eq_false_iff_ne.mpr h1, beq_eq_false_iff_ne.mpr h2,
          beq_eq_false_iff_ne.mpr h3, beq_eq_false_iff_ne.mpr h4,
          beq_eq_false_iff_ne.mpr h5, beq_eq_false_iff_ne.mpr h6]
      rw [hother] at hsix
      exact absurd hsix (by decide)
    · rintro ⟨c', hc', hcc⟩
      cases hc'
      obtain ⟨p, hp, hlk⟩ := List.mem_filterMap.mp hcc
      obtain ⟨kv, hkv, rfl⟩ := List.mem_map.mp (hl p hp)
      obtain ⟨hfix1, hfix2⟩ := hlookup kv hkv
      rw [hfix1] at hlk
      injection hlk with hc
      rw [← hc, hfix2]
      exact hp

/-- The payment-type conjunct of the pushdown predicate, as a
proposition. -/
lemma payment_match_iff (codes : List Int) (pt : Option Int) :
    ((match pt with
      | some c => codes.contains c
      | none => false) = true) ↔ ∃ c, pt = some c ∧ c ∈ codes := by
  cases pt with
  | none => simp
  | some c => simp

/-- Every output of per-trip derivation is the join of the trip with
some optional zone row. -/
lemma deriveOne_shape (zones : List ZoneRow) (r : Trip) (d : DerivedRow)
    (hd : d ∈ deriveOne zones r) : ∃ z : Option ZoneRow, d = newRowOf r z := by
  rw [deriveOne] at hd
  rcases hfil : zones.filter (fun z => z.LocationID == r.PULocationID) with _ | ⟨w, t⟩
  · rw [hfil] at hd
    simp at hd
    exact ⟨none, hd⟩
  · rw [hfil] at hd
    obtain ⟨z, _, rfl⟩ := List.mem_map.mp hd
    exact ⟨some z, rfl⟩

/-- The zone disjunct of the pushdown predicate, as a proposition. -/
lemma zone_conj_iff (zones : List ZoneRow) (a : FilterArgs) (r : Trip) :
    ((!zoneOn zones a ||
        (loc_ids zones a.selected_zone_names).contains r.PULocationID) = true) ↔
      (a.selected_zone_names ≠ [] → loc_ids zones a.selected_zone_names ≠ [] →
        r.PULocationID ∈ loc_ids zones a.selected_zone_names) := by
  by_cases h1 : a.selected_zone_names = []
  · simp [zoneOn, h1]
  · by_cases h2 : loc_ids zones a.selected_zone_names = []
    · simp [zoneOn, h1, h2]
    · simp [zoneOn, h1, h2, List.isEmpty_eq_false.mpr h1,
        List.isEmpty_eq_false.mpr h2]

/-- The pushdown predicate holds exactly when the spec's predicate
list does. -/
lemma tripPred_iff_specPredicates (zones : List ZoneRow) (a : FilterArgs)
    (r : Trip) :
    tripPred a (payment_codes a.payment_labels)
        (loc_ids zones a.selected_zone_names) (zoneOn zones a) r = true ↔
      specPredicates zones a r := by
  rw [tripPred, specPredicates]
  simp only [Bool.and_eq_true, decide_eq_true_iff, payment_match_iff,
    zone_conj_iff, and_assoc]

/-- Resolving an empty zone-name selection yields no ids. -/
lemma loc_ids_nil (zones : List ZoneRow) : loc_ids zones [] = [] := by
  rw [loc_ids]
  have : zones.filter (fun z =>
      match z.Zone with
      | some n => ([] : List String).contains n
      | none => false) = [] := by
    rw [List.filter_eq_nil_iff]
    intro z _
    cases z.Zone <;> simp
  rw [this]
  rfl

/-- A non-empty selection of known payment labels resolves to a
non-empty code set. -/
lemma payment_codes_ne_nil (labels : List String) (hne : labels ≠ [])
    (hl : ∀ p ∈ labels, p ∈ PAYMENT_MAP.map Prod.snd) :
    payment_codes labels ≠ [] := by
  obtain ⟨p, hp⟩ := List.exists_mem_of_ne_nil labels hne
  obtain ⟨kv, hkv, rfl⟩ := List.mem_map.mp (hl p hp)
  have hfix : LABEL_TO_CODE.lookup kv.2 = some kv.1 :=
    (show ∀ kv ∈ PAYMENT_MAP, LABEL_TO_CODE.lookup kv.2 = some kv.1 by decide)
      kv hkv
  exact List.ne_nil_of_mem (show kv.1 ∈ payment_codes labels from
    List.mem_filterMap.mpr ⟨kv.2, hp, hfix⟩)

/-- Under the unique-id invariant, the in-memory zone mask on the
joined zone name agrees with pushdown membership in the resolved
location ids. -/
lemma zoneSel_iff_loc_ids (zones : List ZoneRow)
    (hz : (zones.map ZoneRow.LocationID).Nodup) (names : List String)
    (r : Trip) :
    (zoneSelPred names (appRowOf r (zmatch zones r)) = true) ↔
      r.PULocationID ∈ loc_ids zones names := by
  rcases hzm : zmatch zones r with _ | z₀
  · rw [zmatch_eq_none] at hzm
    constructor
    · intro h
      exact absurd h (by simp [zoneSelPred, appRowOf])
    · intro h
      obtain ⟨z, hzz, hzl, -⟩ := (mem_loc_ids zones names _).mp h
      exact absurd hzl (hzm z hzz)
  · obtain ⟨hzin, hzl⟩ := zmatch_eq_some zones r z₀ hzm
    have hpz : (appRowOf r (some z₀)).pickup_zone = z₀.Zone := rfl
    rw [zoneSelPred, hpz]
    rcases hzo : z₀.Zone with _ | n
    · constructor
      · intro h; cases h
      · intro h
        obtain ⟨z, hzz, hzl', n', hn', -⟩ := (mem_loc_ids zones names _).mp h
        have hzeq : z = z₀ :=
          List.inj_on_of_nodup_map hz hzz hzin (by rw [hzl', hzl])
        rw [hzeq, hzo] at hn'
        cases hn'
    · constructor
      · intro h
        have hnn : n ∈ names := by simpa using h
        exact (mem_loc_ids zones names _).mpr ⟨z₀, hzin, hzl, n, hzo, hnn⟩
      · intro h
        obtain ⟨z, hzz, hzl', n', hn', hnn⟩ := (mem_loc_ids zones names _).mp h
        have hzeq : z = z₀ :=
          List.inj_on_of_nodup_map hz hzz hzin (by rw [hzl', hzl])
        rw [hzeq, hzo] at hn'
        injection hn' with hne'
        show names.contains n = true
        rw [hne']
        simpa using hnn

/-- The in-memory payment-label mask and the pushdown payment-code
conjunct agree, for label lists drawn from the six known labels. -/
lemma payment_conj_eq (zones : List ZoneRow) (a : FilterArgs)
    (hl : ∀ p ∈ a.payment_labels, p ∈ PAYMENT_MAP.map Prod.snd) (r : Trip) :
    a.payment_labels.contains ((appRowOf r (zmatch zones r)).payment_label)
      = (match r.payment_type with
         | some c => (payment_codes a.payment_labels).contains c
         | none => false) := by
  rw [Bool.eq_iff_iff, payment_match_iff]
  constructor
  · intro h
    exact (payment_label_mem_iff a.payment_labels hl r.payment_type).mp
      (by simpa using h)
  · intro h
    have := (payment_label_mem_iff a.payment_labels hl r.payment_type).mpr h
    simpa using this

/-- Pointwise agreement of the two pipelines' predicates when no zone
filter applies. -/
lemma pred_no_zone (zones : List ZoneRow) (a : FilterArgs)
    (hl : ∀ p ∈ a.payment_labels, p ∈ PAYMENT_MAP.map Prod.snd)
    (ids : List Int) (r : Trip) :
    (sidebarPred a (appRowOf r (zmatch zones r)) && cleanPred r)
      = tripPred a (payment_codes a.payment_labels) ids false r := by
  rw [sidebarPred, payment_conj_eq zones a hl r, Bool.eq_iff_iff]
  simp only [Bool.and_eq_true, decide_eq_true_iff, cleanPred, tripPred,
    appRowOf, Bool.not_false, Bool.true_or, Bool.and_true]
  tauto

/-- Pointwise agreement of the two pipelines' predicates when the zone
filter applies. -/
lemma pred_with_zone (zones : List ZoneRow) (a : FilterArgs)
    (hz : (zones.map ZoneRow.LocationID).Nodup)
    (hl : ∀ p ∈ a.payment_labels, p ∈ PAYMENT_MAP.map Prod.snd) (r : Trip) :
    ((zoneSelPred a.selected_zone_names (appRowOf r (zmatch zones r)) &&
        sidebarPred a (appRowOf r (zmatch zones r))) && cleanPred r)
      = tripPred a (payment_codes a.payment_labels)
          (loc_ids zones a.selected_zone_names) true r := by
  rw [sidebarPred, payment_conj_eq zones a hl r, Bool.eq_iff_iff]
  simp only [Bool.and_eq_true]
  rw [zoneSel_iff_loc_ids zones hz a.selected_zone_names r]
  simp only [Bool.and_eq_true, decide_eq_true_iff, cleanPred, tripPred,
    appRowOf, Bool.not_true, Bool.false_or, List.elem_eq_mem,
    decide_eq_true_eq]
  tauto

/-- Sorting a duplicate-free list of weekday names by the categorical
order lists them in `day_order`'s order. -/
lemma insertionSort_day (l : List String) (hn : l.Nodup)
    (hm : ∀ x ∈ l, x ∈ day_order) :
    List.insertionSort catLe l = day_order.filter (fun d => decide (d ∈ l)) := by
  have hperm : (List.insertionSort catLe l).Perm l := List.perm_insertionSort _ _
  have hsorted : List.Sorted catLe (List.insertionSort catLe l) :=
    List.sorted_insertionSort _ _
  have hdo : List.Sorted catLe day_order := by decide
  have hfsorted : List.Sorted catLe (day_order.filter fun d => decide (d ∈ l)) :=
    hdo.filter _
  have hfnodup : (day_order.filter fun d => decide (d ∈ l)).Nodup :=
    (show day_order.Nodup by decide).filter _
  have hmem : ∀ x, x ∈ l ↔ x ∈ day_order.filter fun d => decide (d ∈ l) := by
    intro x
    rw [List.mem_filter, decide_eq_true_iff]
    exact ⟨fun hx => ⟨hm x hx, hx⟩, fun hx => hx.2⟩
  exact List.eq_of_perm_of_sorted
    (hperm.trans ((List.perm_ext_iff_of_nodup hn hfnodup).mpr hmem))
    hsorted hfsorted

/-! ### Claim theorems -/

/-- C1: with a non-empty resolved payment-code set, the query step of
`get_filtered_df` returns exactly the dataset rows satisfying the
spec's predicate list: a returned row satisfies every predicate, and
each dataset occurrence of a satisfying row appears exactly once in
the result (multiplicities preserved; nothing else appears; order is
not constrained). -/
theorem query_step_exact (ds : List Trip) (zones : List ZoneRow)
    (a : FilterArgs) (hcodes : payment_codes a.payment_labels ≠ [])
    (r : Trip) :
    (r ∈ queryRows ds zones a ↔ r ∈ ds ∧ specPredicates zones a r) ∧
    (specPredicates zones a r →
      (queryRows ds zones a).count r = ds.count r) ∧
    (¬ specPredicates zones a r → (queryRows ds zones a).count r = 0) := by
  refine ⟨?_, ?_, ?_⟩
  · rw [queryRows, List.mem_filter, tripPred_iff_specPredicates]
  · intro hs
    rw [queryRows]
    exact List.count_filter ((tripPred_iff_specPredicates zones a r).mpr hs)
  · intro hs
    rw [queryRows]
    refine List.count_eq_zero_of_not_mem fun hmem => hs ?_
    exact (tripPred_iff_specPredicates zones a r).mp (List.mem_filter.mp hmem).2

/-- Witness for C1 at the §8.7 scenario's dataset and specification. -/
theorem query_step_exact_witness :
    payment_codes args8.payment_labels ≠ [] ∧
    ((trip8 ∈ queryRows [trip8] zones8 args8 ↔
        trip8 ∈ [trip8] ∧ specPredicates zones8 args8 trip8) ∧
     (specPredicates zones8 args8 trip8 →
        (queryRows [trip8] zones8 args8).count trip8 = [trip8].count trip8) ∧
     (¬ specPredicates zones8 args8 trip8 →
        (queryRows [trip8] zones8 args8).count trip8 = 0)) :=
  ⟨by decide, query_step_exact [trip8] zones8 args8 (by decide) trip8⟩

/-- C2: for every input row set (including the empty set) and every
zone table satisfying the data model's unique-location-id invariant,
the derivation stage produces exactly as many rows as it receives; no
row is dropped and none is added. -/
theorem derivation_preserves_row_count (zones : List ZoneRow) (rows : List Trip)
    (hz : (zones.map ZoneRow.LocationID).Nodup) :
    (deriveRows zones rows).length = rows.length := by
  rw [deriveRows_eq zones hz]
  simp

/-- Witness for C2 at a concrete zone table and row set. -/
theorem derivation_preserves_row_count_witness :
    (zones8.map ZoneRow.LocationID).Nodup ∧
      (deriveRows zones8 [trip8]).length = [trip8].length :=
  ⟨by decide, derivation_preserves_row_count zones8 [trip8] (by decide)⟩

/-- C3: when the selected payment labels translate to an empty payment
code set, `get_filtered_df` returns the empty frame at once and issues
no query against the trip source. -/
theorem empty_payment_short_circuit (ds : List Trip) (zones : List ZoneRow)
    (a : FilterArgs) (h : payment_codes a.payment_labels = []) :
    get_filtered_df ds zones a = (emptyDf, false) := by
  rw [get_filtered_df]
  simp [h]

/-- Witness for C3: the empty label selection on a non-empty dataset. -/
theorem empty_payment_short_circuit_witness :
    payment_codes ({ args8 with payment_labels := [] } : FilterArgs).payment_labels = [] ∧
      get_filtered_df [trip8] zones8 { args8 with payment_labels := [] }
        = (emptyDf, false) :=
  ⟨by decide, empty_payment_short_circuit [trip8] zones8 _ (by decide)⟩

/-- C4: a non-empty zone-name selection that resolves to no location
ids leaves the result exactly what it is with no zone selection at
all. -/
theorem unresolved_zone_selection_noop (ds : List Trip) (zones : List ZoneRow)
    (a : FilterArgs) (hne : a.selected_zone_names ≠ [])
    (hres : loc_ids zones a.selected_zone_names = []) :
    get_filtered_df ds zones a
      = get_filtered_df ds zones { a with selected_zone_names := [] } := by
  have hq : queryRows ds zones a
      = queryRows ds zones { a with selected_zone_names := [] } := by
    rw [queryRows, queryRows]
    have h1 : zoneOn zones a = false := by
      rw [zoneOn, hres]
      simp
    have h2 : zoneOn zones { a with selected_zone_names := [] } = false := by
      rw [zoneOn]
      simp
    rw [h1, h2, hres]
    show _ = List.filter (tripPred _ _ (loc_ids zones []) false) _
    rw [loc_ids_nil]
    rfl
  simp only [get_filtered_df]
  rw [hq]

/-- Witness for C4: a zone name absent from the zone table. -/
theorem unresolved_zone_selection_noop_witness :
    ({ args8 with selected_zone_names := ["Nowhere"] } : FilterArgs).selected_zone_names ≠ [] ∧
    loc_ids zones8 ["Nowhere"] = [] ∧
    get_filtered_df [trip8] zones8 { args8 with selected_zone_names := ["Nowhere"] }
      = get_filtered_df [trip8] zones8
          { { args8 with selected_zone_names := ["Nowhere"] } with selected_zone_names := [] } :=
  ⟨by decide, by decide,
    unresolved_zone_selection_noop [trip8] zones8 _ (by decide) (by decide)⟩

/-- C5 (amended): calling the cached retrieval twice with the same
Filter Specification value — list fields compared element-wise, as the
cache key does — returns the same frame and leaves the cache state
(including the retrieval count) unchanged: the second call performs no
remote retrieval.  Set-equal but reordered list fields are a different
key; see the counterexample. -/
theorem cache_idempotent (ds : List Trip) (zones : List ZoneRow)
    (a : FilterArgs) (s : CacheState) :
    get_filtered_df_cached ds zones a (get_filtered_df_cached ds zones a s).2
      = get_filtered_df_cached ds zones a s := by
  rcases h : s.entries.lookup a with _ | v
  · have h1 : get_filtered_df_cached ds zones a s
        = ((get_filtered_df ds zones a).1,
           { entries := (a, (get_filtered_df ds zones a).1) :: s.entries
             retrievals := s.retrievals +
               (if (get_filtered_df ds zones a).2 then 1 else 0) }) := by
      rw [get_filtered_df_cached, h]
    rw [h1, get_filtered_df_cached]
    simp
  · have h1 : get_filtered_df_cached ds zones a s = (v, s) := by
      rw [get_filtered_df_cached, h]
    rw [h1, get_filtered_df_cached, h]

/-- C5 counterexample: two Filter Specifications equal on the four
scalar fields, with set-equal (merely reordered) payment-label lists
and equal zone-name lists, for which the second cached call does
perform a second remote retrieval — the cache key treats list fields
as sequences, not sets. -/
theorem cache_set_equality_counterexample :
    argsOrdA.payment_labels.Perm argsOrdB.payment_labels ∧
    argsOrdA.start_datetime = argsOrdB.start_datetime ∧
    argsOrdA.end_datetime = argsOrdB.end_datetime ∧
    argsOrdA.hour_min = argsOrdB.hour_min ∧
    argsOrdA.hour_max = argsOrdB.hour_max ∧
    argsOrdA.selected_zone_names = argsOrdB.selected_zone_names ∧
    (get_filtered_df_cached [] [] argsOrdA
        { entries := [], retrievals := 0 }).2.retrievals = 1 ∧
    (get_filtered_df_cached [] [] argsOrdB
        (get_filtered_df_cached [] [] argsOrdA
          { entries := [], retrievals := 0 }).2).2.retrievals = 2 := by
  decide

/-- C6 counterexample: for a Filter Specification with an empty
payment selection the returned frame has no columns at all, so
`pickup_hour` (and the other stable columns) are absent from the empty
result, contrary to the claim's "always present". -/
theorem stable_columns_counterexample :
    (get_filtered_df [trip8] zones8
        { args8 with payment_labels := [] }).1.columns = [] ∧
    "pickup_hour" ∉ (get_filtered_df [trip8] zones8
        { args8 with payment_labels := [] }).1.columns := by
  decide

/-- C6 (amended): whenever the resolved payment-code set is non-empty,
the frame returned by `get_filtered_df` carries the full stable column
list — in particular `pickup_hour`, `pickup_day_of_week`,
`pickup_zone` and `payment_label` — with the types fixed by the
`DerivedRow` schema; the empty-payment short-circuit instead returns a
column-less empty frame. -/
theorem stable_columns (ds : List Trip) (zones : List ZoneRow)
    (a : FilterArgs) (h : payment_codes a.payment_labels ≠ []) :
    (get_filtered_df ds zones a).1.columns = NEWAPP_COLUMNS ∧
    "pickup_hour" ∈ (get_filtered_df ds zones a).1.columns ∧
    "pickup_day_of_week" ∈ (get_filtered_df ds zones a).1.columns ∧
    "pickup_zone" ∈ (get_filtered_df ds zones a).1.columns ∧
    "payment_label" ∈ (get_filtered_df ds zones a).1.columns := by
  have hc : (get_filtered_df ds zones a).1.columns = NEWAPP_COLUMNS := by
    rw [get_filtered_df, if_neg (by simpa using h)]
  exact ⟨hc, by rw [hc]; decide, by rw [hc]; decide, by rw [hc]; decide,
    by rw [hc]; decide⟩

/-- Witness for C6's amended statement at a concrete specification. -/
theorem stable_columns_witness :
    payment_codes args8.payment_labels ≠ [] ∧
    ((get_filtered_df [trip8] zones8 args8).1.columns = NEWAPP_COLUMNS ∧
     "pickup_hour" ∈ (get_filtered_df [trip8] zones8 args8).1.columns ∧
     "pickup_day_of_week" ∈ (get_filtered_df [trip8] zones8 args8).1.columns ∧
     "pickup_zone" ∈ (get_filtered_df [trip8] zones8 args8).1.columns ∧
     "payment_label" ∈ (get_filtered_df [trip8] zones8 args8).1.columns) :=
  ⟨by decide, stable_columns [trip8] zones8 args8 (by decide)⟩

/-- C7: the payment-label mapping is total and deterministic — codes
1 to 6 map to the six fixed labels, any other code (including an
absent one) maps to "Other/Missing" — and derivation applies exactly
this mapping to each row's payment code. -/
theorem payment_mapping_total :
    (paymentLabel (some 1) = "Credit Card" ∧ paymentLabel (some 2) = "Cash" ∧
     paymentLabel (some 3) = "No Charge" ∧ paymentLabel (some 4) = "Dispute" ∧
     paymentLabel (some 5) = "Unknown" ∧ paymentLabel (some 6) = "Voided Trip" ∧
     paymentLabel none = "Other/Missing") ∧
    (∀ c : Int, c ∉ ([1, 2, 3, 4, 5, 6] : List Int) →
      paymentLabel (some c) = "Other/Missing") ∧
    (∀ (zones : List ZoneRow) (rows : List Trip), ∀ d ∈ deriveRows zones rows,
      d.payment_label = paymentLabel d.payment_type) := by
  refine ⟨by decide, ?_, ?_⟩
  · intro c hc
    simp only [List.mem_cons, List.not_mem_nil, or_false, not_or] at hc
    obtain ⟨h1, h2, h3, h4, h5, h6⟩ := hc
    rw [paymentLabel, PAYMENT_MAP]
    simp [List.lookup, beq_eq_false_iff_ne.mpr h1, beq_eq_false_iff_ne.mpr h2,
      beq_eq_false_iff_ne.mpr h3, beq_eq_false_iff_ne.mpr h4,
      beq_eq_false_iff_ne.mpr h5, beq_eq_false_iff_ne.mpr h6]
  · intro zones rows d hd
    obtain ⟨r, -, hdr⟩ := List.mem_flatMap.mp hd
    obtain ⟨z, rfl⟩ := deriveOne_shape zones r d hdr
    rfl

/-- Witness for C7 at the unmapped code 7. -/
theorem payment_mapping_total_witness :
    (7 : Int) ∉ ([1, 2, 3, 4, 5, 6] : List Int) ∧
      paymentLabel (some 7) = "Other/Missing" :=
  ⟨by decide, payment_mapping_total.2.1 7 (by decide)⟩

/-- C9: every derived row's weekday is a member of the 7-element
ordered weekday enumeration, and the `groupby` keys sorted by the
category order come out in calendar order Monday through Sunday —
characterized as the calendar list filtered to the weekdays present,
which is invariant under any permutation of the input rows. -/
theorem weekday_category_order (zones : List ZoneRow) (rows : List Trip) :
    (∀ d ∈ deriveRows zones rows, d.pickup_day_of_week ∈ day_order) ∧
    sortedDayKeys (deriveRows zones rows)
      = day_order.filter (fun s =>
          decide (s ∈ (deriveRows zones rows).map DerivedRow.pickup_day_of_week)) ∧
    (∀ rows' : List Trip, rows'.Perm rows →
      sortedDayKeys (deriveRows zones rows')
        = sortedDayKeys (deriveRows zones rows)) := by
  have hmemall : ∀ rs : List Trip, ∀ d ∈ deriveRows zones rs,
      d.pickup_day_of_week ∈ day_order := by
    intro rs d hd
    obtain ⟨r, -, hdr⟩ := List.mem_flatMap.mp hd
    rw [pdow_of_deriveOne zones r d hdr]
    exact dayName_mem_day_order _
  have key : ∀ rs : List Trip,
      sortedDayKeys (deriveRows zones rs)
        = day_order.filter (fun s =>
            decide (s ∈ (deriveRows zones rs).map DerivedRow.pickup_day_of_week)) := by
    intro rs
    have hm : ∀ x ∈ ((deriveRows zones rs).map DerivedRow.pickup_day_of_week).dedup,
        x ∈ day_order := by
      intro x hx
      rw [List.mem_dedup] at hx
      obtain ⟨d, hd, rfl⟩ := List.mem_map.mp hx
      exact hmemall rs d hd
    rw [sortedDayKeys, groupDayKeys, insertionSort_day _ (List.nodup_dedup _) hm]
    refine List.filter_congr fun d _ => ?_
    simp [List.mem_dedup]
  refine ⟨hmemall rows, key rows, ?_⟩
  intro rows' hp
  rw [key rows', key rows]
  refine List.filter_congr fun d _ => ?_
  refine decide_eq_decide.mpr ?_
  exact ((hp.flatMap_right (deriveOne zones)).map DerivedRow.pickup_day_of_week).mem_iff

/-- Witness for C9 at a concrete zone table and row set. -/
theorem weekday_category_order_witness :
    (∀ d ∈ deriveRows zones8 [trip8], d.pickup_day_of_week ∈ day_order) ∧
    sortedDayKeys (deriveRows zones8 [trip8])
      = day_order.filter (fun s =>
          decide (s ∈ (deriveRows zones8 [trip8]).map DerivedRow.pickup_day_of_week)) ∧
    (∀ rows' : List Trip, rows'.Perm [trip8] →
      sortedDayKeys (deriveRows zones8 rows')
        = sortedDayKeys (deriveRows zones8 [trip8])) :=
  weekday_category_order zones8 [trip8]

/-- C8: the concrete §8.7 scenario — the 2024-01-05 05:10→05:40 JFK
credit-card trip is returned under the covering specification, with
duration 30 minutes, hour 5, weekday Friday, zone "JFK Airport" and
label "Credit Card". -/
theorem concrete_scenario_row :
    (get_filtered_df [trip8] zones8 args8).1.rows = [row8] ∧
    row8.trip_duration_minutes = 30 ∧ row8.pickup_hour = 5 ∧
    row8.pickup_day_of_week = "Friday" ∧
    row8.pickup_zone = some "JFK Airport" ∧
    row8.payment_label = "Credit Card" := by
  refine ⟨?_, rfl, rfl, rfl, rfl, rfl⟩
  have hq : queryRows [trip8] zones8 args8 = [trip8] := by decide
  show (get_filtered_df [trip8] zones8 args8).1.rows = [row8]
  rw [get_filtered_df, if_neg (by decide)]
  show deriveRows zones8 (queryRows [trip8] zones8 args8) = [row8]
  rw [hq]
  show [newRowOf trip8 (some { LocationID := 132, Zone := some "JFK Airport" })] = [row8]
  simp only [newRowOf, row8, trip8, List.cons.injEq, and_true, DerivedRow.mk.injEq]
  norm_num [hourOf, dayName, dayIdx, day_order, paymentLabel, PAYMENT_MAP, List.lookup]

/-- C10: for every trip dataset, zone table satisfying the data
model's unique-location-id invariant, and filter selection whose
payment labels are drawn from the six known labels and whose zone
names (when any are selected) resolve to at least one location id, the
in-memory pipeline of `app.py` and the pushdown pipeline of
`newapp.py` produce the same multiset of derived rows, compared on
their shared columns. -/
theorem pipelines_equivalent (ds : List Trip) (zones : List ZoneRow)
    (a : FilterArgs) (hz : (zones.map ZoneRow.LocationID).Nodup)
    (hl : ∀ p ∈ a.payment_labels, p ∈ PAYMENT_MAP.map Prod.snd)
    (hsel : a.selected_zone_names = [] ∨
      loc_ids zones a.selected_zone_names ≠ []) :
    (((filtered_df ds zones a).map projApp : List DerivedRow) : Multiset DerivedRow)
      = ((get_filtered_df ds zones a).1.rows : Multiset DerivedRow) := by
  suffices h : (filtered_df ds zones a).map projApp
      = (get_filtered_df ds zones a).1.rows by
    rw [h]
  by_cases hlab : a.payment_labels = []
  · have happ : (load_data ds zones).filter (sidebarPred a) = [] := by
      rw [List.filter_eq_nil_iff]
      intro x hx
      simp [sidebarPred, hlab]
    have h1 : filtered_df ds zones a = [] := by
      rw [filtered_df]
      by_cases he : a.selected_zone_names.isEmpty <;> simp [he, happ]
    have h2 : (get_filtered_df ds zones a).1.rows = [] := by
      rw [get_filtered_df, if_pos (by rw [hlab]; rfl)]
      rfl
    rw [h1, h2]
    rfl
  · have hcodes : payment_codes a.payment_labels ≠ [] :=
      payment_codes_ne_nil a.payment_labels hlab hl
    have hrhs : (get_filtered_df ds zones a).1.rows
        = (queryRows ds zones a).map (fun r => newRowOf r (zmatch zones r)) := by
      rw [get_filtered_df, if_neg (by simpa using hcodes)]
      show deriveRows zones (queryRows ds zones a) = _
      exact deriveRows_eq zones hz _
    have hproj : (projApp ∘ fun r : Trip => appRowOf r (zmatch zones r))
        = fun r : Trip => newRowOf r (zmatch zones r) := rfl
    by_cases hne : a.selected_zone_names = []
    · have hzOn : zoneOn zones a = false := by simp [zoneOn, hne]
      have hlhs : filtered_df ds zones a
          = ((ds.filter cleanPred).map
              (fun r => appRowOf r (zmatch zones r))).filter (sidebarPred a) := by
        rw [filtered_df, load_data_eq ds zones hz]
        simp [hne]
      rw [hlhs, hrhs, List.filter_map, List.map_map, hproj, queryRows, hzOn,
        List.filter_filter]
      refine congrArg _ (List.filter_congr fun r hr => ?_)
      exact pred_no_zone zones a hl _ r
    · have hids := hsel.resolve_left hne
      have hzOn : zoneOn zones a = true := by
        simp [zoneOn, List.isEmpty_eq_false.mpr hne,
          List.isEmpty_eq_false.mpr hids]
      have hlhs : filtered_df ds zones a
          = (((ds.filter cleanPred).map
              (fun r => appRowOf r (zmatch zones r))).filter
                (sidebarPred a)).filter (zoneSelPred a.selected_zone_names) := by
        rw [filtered_df, load_data_eq ds zones hz]
        simp [List.isEmpty_eq_false.mpr hne]
      rw [hlhs, hrhs, List.filter_map, List.filter_map, List.map_map, hproj,
        queryRows, hzOn, List.filter_filter, List.filter_filter]
      refine congrArg _ (List.filter_congr fun r hr => ?_)
      exact pred_with_zone zones a hz hl r

/-- Witness for C10 at the §8.7 scenario's trip with a resolving zone
selection. -/
theorem pipelines_equivalent_witness :
    (zones8.map ZoneRow.LocationID).Nodup ∧
    (∀ p ∈ (["Credit Card"] : List String), p ∈ PAYMENT_MAP.map Prod.snd) ∧
    loc_ids zones8 ["JFK Airport"] ≠ [] ∧
    (((filtered_df [trip8] zones8
          { args8 with selected_zone_names := ["JFK Airport"] }).map projApp :
        List DerivedRow) : Multiset DerivedRow)
      = ((get_filtered_df [trip8] zones8
          { args8 with selected_zone_names := ["JFK Airport"] }).1.rows :
            Multiset DerivedRow) :=
  ⟨by decide, by decide, by decide,
    pipelines_equivalent [trip8] zones8
      { args8 with selected_zone_names := ["JFK Airport"] }
      (by decide) (by decide) (Or.inr (by decide))⟩

end Taxi
